import Mathlib

/-!
Shallow embedding of the news-portal core (`news_portal/models.py` and
`news_portal/views.py`): the rating aggregator, the cache key scheme and
the pattern-based cache invalidation engine, together with theorems about
the claimed properties.

Conventions of the embedding:
* Django model instances become Lean structures; the database is a record
  of lists of rows; `Model.save` is an upsert keyed on the primary key.
* The Django cache is a list of (string key, value-with-timeout) entries
  plus a flag recording whether the backend exposes key enumeration
  (`hasattr(cache, '_cache') and hasattr(cache._cache, 'keys')`).
* Cache keys are `List Char`; Python f-strings become list appends, and
  the decimal rendering of an `int` is `natStr`.  A Python `float` such as
  a creation timestamp is carried as its decimal rendering (a `List Char`
  that never contains an underscore).
* `re.search` of `pattern.replace('*', '.*')` is embedded as `reSearch`:
  the pattern is split on `'*'` into literal segments (none of the
  patterns used contains any other regex metacharacter) and the key
  matches when the segments occur in order, anywhere in the key.
-/

set_option autoImplicit false

namespace NewsPortal

/-! ### Characters and strings -/

/-- Test whether `pat` occurs at the very start of `key`. -/
def startsWith : List Char → List Char → Bool
  | [], _ => true
  | _ :: _, [] => false
  | p :: ps, k :: ks => p == k && startsWith ps ks

/-- Test whether `pat` occurs somewhere inside `key` (the semantics of `re.search` for a
literal pattern). -/
def containsSub (pat : List Char) : List Char → Bool
  | [] => pat.isEmpty
  | k :: ks => startsWith pat (k :: ks) || containsSub pat ks

/-- Find the first occurrence of the literal `pat` in `key` and return what
follows it; `none` when `pat` does not occur. -/
def dropAfterFirst (pat : List Char) : List Char → Option (List Char)
  | [] => if pat.isEmpty then some [] else none
  | k :: ks =>
      if startsWith pat (k :: ks) then some ((k :: ks).drop pat.length)
      else dropAfterFirst pat ks

/-- Match a sequence of literal segments (the pieces of a glob between the
`*`s) in order, anywhere in the key: the semantics of
`re.search(pattern.replace('*', '.*'), key)` for patterns whose literal
parts contain no regex metacharacters. -/
def segsSearch : List (List Char) → List Char → Bool
  | [], _ => true
  | s :: rest, key =>
      match dropAfterFirst s key with
      | some key2 => segsSearch rest key2
      | none => false

/-- Split a glob pattern on `'*'` into its literal segments. -/
def splitOnStar : List Char → List (List Char)
  | [] => [[]]
  | c :: rest =>
      if c = '*' then [] :: splitOnStar rest
      else
        match splitOnStar rest with
        | s :: ss => (c :: s) :: ss
        | [] => [[c]]

/-- Embeds `re.search(pattern.replace('*', '.*'), key)` as used by the cache
invalidation helpers. -/
def reSearch (pattern key : List Char) : Bool :=
  segsSearch (splitOnStar pattern) key

/-- The decimal digit characters. -/
def digitChar (d : Nat) : Char :=
  match d with
  | 0 => '0' | 1 => '1' | 2 => '2' | 3 => '3' | 4 => '4'
  | 5 => '5' | 6 => '6' | 7 => '7' | 8 => '8' | _ => '9'

/-- The decimal digits of `n`, least significant first, driven by a fuel
argument (any fuel at least `n` yields all digits). -/
def digitsRevAux : Nat → Nat → List Nat
  | 0, _ => []
  | fuel + 1, n => if n = 0 then [] else n % 10 :: digitsRevAux fuel (n / 10)

/-- Decimal rendering of a natural number, as Python's `str(int)` inside an
f-string. -/
def natStr (n : Nat) : List Char :=
  if n = 0 then ['0'] else ((digitsRevAux n n).map digitChar).reverse

/-! ### The data model (`news_portal/models.py`) -/

/-- Embeds `class Author(models.Model)`: wraps a user id, carries an integer
rating. -/
structure Author where
  id : Nat
  user : Nat
  rating : Int
  deriving DecidableEq, Repr

/-- Embeds `class Post(models.Model)`. `creation_time` is carried as the decimal
rendering of its timestamp (set once at creation, immutable). -/
structure Post where
  id : Nat
  article_or_news : List Char
  author : Nat
  creation_time : List Char
  name : List Char
  text : List Char
  rating : Int
  deriving DecidableEq, Repr

/-- Embeds `class Category(models.Model)`. -/
structure Category where
  id : Nat
  name : List Char
  deriving DecidableEq, Repr

/-- Embeds `class PostCategory(models.Model)`: the explicit join entity. -/
structure PostCategory where
  post : Nat
  category : Nat
  deriving DecidableEq, Repr

/-- Embeds `class Comment(models.Model)`. -/
structure Comment where
  id : Nat
  comment_post : Nat
  comment_user : Nat
  text : List Char
  rating : Int
  deriving DecidableEq, Repr

/-- The relational store the models live in. -/
structure Db where
  authors : List Author
  posts : List Post
  categories : List Category
  postcategories : List PostCategory
  comments : List Comment
  deriving DecidableEq, Repr

/-- Embeds `Model.save` on a row type keyed by `key`: update the rows with the
same primary key when one exists, insert otherwise. -/
def upsertBy {α : Type} (key : α → Nat) (x : α) (l : List α) : List α :=
  if l.any (fun y => key y = key x) then
    l.map (fun y => if key y = key x then x else y)
  else l ++ [x]

/-! ### The rating aggregator (`Author.update_rating`) -/

/-- A Django `aggregate(Sum('rating'))`: `NULL` (here `none`) on an empty
row set, otherwise the sum. -/
def aggregateSum (ratings : List Int) : Option Int :=
  match ratings with
  | [] => none
  | _ => some ratings.sum

/-- Python's `x or 0` applied to an optional aggregate: `None` and `0` are
falsy and give `0`, any other value passes through. -/
def pyOrZero : Option Int → Int
  | none => 0
  | some v => if v = 0 then 0 else v

/-- Embeds `self.post_set`: the posts whose author is `self`. -/
def postsOf (db : Db) (self : Author) : List Post :=
  db.posts.filter (fun p => p.author = self.id)

/-- Embeds `self.user.comment_set`: the comments made by the author's underlying
user. -/
def commentsOfUser (db : Db) (self : Author) : List Comment :=
  db.comments.filter (fun c => c.comment_user = self.user)

/-- Embeds `Comment.objects.filter(comment_post__author=self)`: the comments
attached to posts owned by `self`. -/
def commentsOnPostsOf (db : Db) (self : Author) : List Comment :=
  db.comments.filter
    (fun c => db.posts.any (fun p => p.id = c.comment_post && p.author = self.id))

/-- The value `Author.update_rating` computes: `Sum('rating') * 3` over the
author's posts, plus the comment sums, each coalesced by `or 0`. -/
def computeRating (db : Db) (self : Author) : Int :=
  let article_rating :=
    pyOrZero ((aggregateSum ((postsOf db self).map Post.rating)).map (· * 3))
  let author_comments_rating :=
    pyOrZero (aggregateSum ((commentsOfUser db self).map Comment.rating))
  let article_comments_rating :=
    pyOrZero (aggregateSum ((commentsOnPostsOf db self).map Comment.rating))
  article_rating + author_comments_rating + article_comments_rating

/-- Embeds `Author.update_rating`: recompute the rating from the three sums and
`self.save()` the result. -/
def update_rating (db : Db) (self : Author) : Db :=
  { db with
    authors := upsertBy Author.id { self with rating := computeRating db self } db.authors }

/-! ### The cache (`django.core.cache.cache`) -/

/-- A value stored in the cache together with the timeout it was stored
with (`cache.set(key, value, timeout)`). -/
structure CacheEntry (V : Type) where
  value : V
  timeout : Nat
  deriving DecidableEq, Repr

/-- The cache backend: a list of string-keyed entries, plus whether the
backend exposes key enumeration
(`hasattr(cache, '_cache') and hasattr(cache._cache, 'keys')`). -/
structure PyCache (V : Type) where
  enumerable : Bool
  entries : List (List Char × CacheEntry V)
  deriving DecidableEq, Repr

/-- Embeds `cache.get(key)`: `None` (here `none`) when the key is absent. -/
def cacheGet {V : Type} (c : PyCache V) (key : List Char) : Option V :=
  (c.entries.find? (fun e => e.1 = key)).map (fun e => e.2.value)

/-- Embeds `cache.set(key, value, timeout)`: overwrite any entry under `key`. -/
def cacheSet {V : Type} (c : PyCache V) (key : List Char) (v : V) (t : Nat) :
    PyCache V :=
  { c with entries := (key, ⟨v, t⟩) :: c.entries.filter (fun e => e.1 ≠ key) }

/-- Embeds `delete_cache_pattern(pattern)` from `views.py`, identical to the inner
`delete_pattern` of `Post.invalidate_cache` in `models.py`: when the
backend exposes its keys, delete every key matched by
`re.search(pattern.replace('*', '.*'), key)`; otherwise (or on
`AttributeError`/`TypeError`) silently do nothing. -/
def delete_cache_pattern {V : Type} (pattern : List Char) (c : PyCache V) :
    PyCache V :=
  if c.enumerable then
    { c with entries := c.entries.filter (fun e => !reSearch pattern e.1) }
  else c

/-- The six patterns `Post.invalidate_cache` deletes, in order. -/
def invalidationPatterns (postId : Nat) : List (List Char) :=
  [ "post_detail_".data ++ natStr postId ++ "_*".data
  , "posts_list_*".data
  , "post_search_*".data
  , "posts_count_*".data
  , "related_posts_".data ++ natStr postId
  , "home_page".data ]

/-- Embeds `Post.invalidate_cache`: run `delete_pattern` on each of the six
patterns in turn. -/
def invalidate_cache {V : Type} (postId : Nat) (c : PyCache V) : PyCache V :=
  (invalidationPatterns postId).foldl (fun acc p => delete_cache_pattern p acc) c

/-- The mutable world a request sees: the relational store and the cache
(value type left abstract, as the Python cache is untyped). -/
structure St (V : Type) where
  db : Db
  cache : PyCache V
  deriving DecidableEq, Repr

/-- Embeds `Post.save`: `super().save()` (an upsert on the post's primary key),
then `self.invalidate_cache()`. -/
def postSave {V : Type} (p : Post) (s : St V) : St V :=
  { db := { s.db with posts := upsertBy Post.id p s.db.posts }
  , cache := invalidate_cache p.id s.cache }

/-- Embeds `Post.delete`: `self.invalidate_cache()`, then `super().delete()`
(which cascades to the post's comments and category links). -/
def postDelete {V : Type} (p : Post) (s : St V) : St V :=
  { db := { s.db with
      posts := s.db.posts.filter (fun q => q.id ≠ p.id)
      , comments := s.db.comments.filter (fun c => c.comment_post ≠ p.id)
      , postcategories := s.db.postcategories.filter (fun pc => pc.post ≠ p.id) }
  , cache := invalidate_cache p.id s.cache }

/-- Embeds `Comment.save`: the `Comment` model defines no `save` override, so a
comment write is the plain `Model.save` upsert — it never touches the
cache. -/
def commentSave {V : Type} (c : Comment) (s : St V) : St V :=
  { s with db := { s.db with comments := upsertBy Comment.id c s.db.comments } }

/-- Embeds `Comment.delete`: likewise the plain `Model.delete`, with no cache
invalidation. -/
def commentDelete {V : Type} (c : Comment) (s : St V) : St V :=
  { s with db := { s.db with comments := s.db.comments.filter (fun d => d.id ≠ c.id) } }

/-- Embeds `Comment.like`: bump the rating and `self.save()`. -/
def commentLike {V : Type} (c : Comment) (s : St V) : St V :=
  commentSave { c with rating := c.rating + 1 } s

/-! ### The cache key scheme (`views.py`) -/

def CACHE_TIMEOUT_POSTS : Nat := 300
def CACHE_TIMEOUT_POST_DETAIL : Nat := 300
def CACHE_TIMEOUT_SEARCH : Nat := 60
def CACHE_TIMEOUT_HOME : Nat := 60

/-- Embeds `get_post_cache_key(post_id, timestamp)`:
the f-string rendering of `post_detail_`, the id, `_`, the timestamp. -/
def get_post_cache_key (post_id : Nat) (timestamp : List Char) : List Char :=
  "post_detail_".data ++ natStr post_id ++ "_".data ++ timestamp

/-- Embeds `get_posts_list_cache_key(params)`. -/
def get_posts_list_cache_key (params : List Char) : List Char :=
  "posts_list_".data ++ params

/-- Embeds `get_search_cache_key(params)`. -/
def get_search_cache_key (params : List Char) : List Char :=
  "post_search_".data ++ params

/-! ### Cached read paths (`views.py`) -/

/-- The dictionary `PostDetail.get_object` caches: the object itself, the
time it was cached, its category ids and the author's user name. -/
structure DetailData where
  object : Post
  cached_at : Nat
  categories : List Nat
  author_name : List Char
  deriving DecidableEq, Repr

/-- Embeds `list(obj.category.all())` through the `PostCategory` join. -/
def categoriesOf (db : Db) (p : Post) : List Nat :=
  (db.postcategories.filter (fun pc => pc.post = p.id)).map PostCategory.category

/-- Embeds `obj.author.user.username`, modelled as the author's user id rendered
in decimal (the username itself is outside the embedded state). -/
def authorNameOf (db : Db) (p : Post) : List Char :=
  natStr ((db.authors.find? (fun a => a.id = p.author)).elim 0 Author.user)

/-- Embeds `PostDetail.get_object`: probe the cache under the post's detail key;
on a miss build the detail dictionary, store it with
`CACHE_TIMEOUT_POST_DETAIL`, and return its `object` field; on a hit
return the cached `object` with no recomputation. `now` stands for
`timezone.now()`. -/
def postDetailGetObject (s : St DetailData) (obj : Post) (now : Nat) :
    Post × St DetailData :=
  let cache_key := get_post_cache_key obj.id obj.creation_time
  match cacheGet s.cache cache_key with
  | some cached_data => (cached_data.object, s)
  | none =>
      let cached_data : DetailData :=
        ⟨obj, now, categoriesOf s.db obj, authorNameOf s.db obj⟩
      (cached_data.object,
       { s with cache := cacheSet s.cache cache_key cached_data CACHE_TIMEOUT_POST_DETAIL })

/-- Embeds `PostsList.get_queryset`: probe the cache under the list key built from
the url-encoded query parameters; on a miss compute the filtered
queryset and store it with `CACHE_TIMEOUT_POSTS`.  `fq` stands for
`PostFilter(self.request.GET, queryset).qs`, whose definition lives in
`filters.py`, outside the embedded sources; it is carried as an opaque
transformation of the row list. -/
def postsListGetQueryset (fq : List Post → List Post) (s : St (List Post))
    (params : List Char) : List Post × St (List Post) :=
  let cache_key := get_posts_list_cache_key params
  match cacheGet s.cache cache_key with
  | some queryset => (queryset, s)
  | none =>
      let queryset := fq s.db.posts
      (queryset,
       { s with cache := cacheSet s.cache cache_key queryset CACHE_TIMEOUT_POSTS })

/-! ### The home page view (`home_view`) -/

/-- The field names the `Post` model actually declares (plus the implicit
primary key `id`); the query planner resolves filter keywords against
this list. -/
def post_fields : List (List Char) :=
  [ "id".data, "article_or_news".data, "author".data, "creation_time".data
  , "category".data, "name".data, "text".data, "rating".data ]

/-- A filter keyword as used by `home_view`'s queries. -/
inductive Lookup where
  | article_or_news (v : List Char)
  | is_published (v : Bool)
  deriving DecidableEq, Repr

/-- The model field a lookup refers to. -/
def lookupField : Lookup → List Char
  | .article_or_news _ => "article_or_news".data
  | .is_published _ => "is_published".data

/-- Evaluate a lookup on a row.  `is_published` has no corresponding field
on `Post`, so its branch is never reached: `querysetFilter` rejects the
keyword before any row is tested. -/
def evalLookup : Lookup → Post → Bool
  | .article_or_news v, p => p.article_or_news = v
  | .is_published _, _ => true

/-- Embeds `Post.objects.filter(...)`: Django resolves every filter keyword
against the model's fields and raises `FieldError` (`Cannot resolve
keyword ...`) when one does not exist; otherwise the rows satisfying all
lookups are returned. -/
def querysetFilter (lookups : List Lookup) (rows : List Post) :
    Except (List Char) (List Post) :=
  match lookups.find? (fun l => !post_fields.contains (lookupField l)) with
  | some l => .error ("Cannot resolve keyword ".data ++ lookupField l)
  | none => .ok (rows.filter (fun p => lookups.all (fun l => evalLookup l p)))

/-- What `home_view` caches under `home_page`. -/
structure HomeData where
  latest_news : List Post
  latest_articles : List Post
  popular_posts : List Post
  cached_at : Nat
  deriving DecidableEq, Repr

/-- Embeds `home_view`: probe the cache under `home_page`; on a miss run the three
`Post.objects.filter(..., is_published=True)` queries (each of which
must resolve its keywords), cache the result with `CACHE_TIMEOUT_HOME`
and render it; a raised `FieldError` propagates to the caller.
The `-creation_time` ordering of the first two queries is not modelled
(timestamps are opaque strings here); that code is unreachable anyway,
since every query names `is_published`. -/
def home_view (s : St HomeData) (now : Nat) :
    Except (List Char) (HomeData × St HomeData) :=
  match cacheGet s.cache "home_page".data with
  | some cached_data => .ok (cached_data, s)
  | none => do
      let latest_news ←
        querysetFilter [.article_or_news "NW".data, .is_published true] s.db.posts
      let latest_articles ←
        querysetFilter [.article_or_news "AR".data, .is_published true] s.db.posts
      let popular_posts ← querysetFilter [.is_published true] s.db.posts
      let cached_data : HomeData :=
        ⟨latest_news.take 5, latest_articles.take 5,
         (popular_posts.mergeSort (fun a b => b.rating ≤ a.rating)).take 5, now⟩
      .ok (cached_data,
           { s with cache := cacheSet s.cache "home_page".data cached_data CACHE_TIMEOUT_HOME })

/-! ### Lemmas about the pattern matcher -/

theorem containsSub_of_startsWith {pat key : List Char}
    (h : startsWith pat key = true) : containsSub pat key = true := by
  cases key with
  | nil =>
      cases pat with
      | nil => rfl
      | cons p ps => simp [startsWith] at h
  | cons k ks => simp [containsSub, h]

theorem dropAfterFirst_isSome (pat key : List Char) :
    (dropAfterFirst pat key).isSome = containsSub pat key := by
  induction key with
  | nil =>
      simp only [dropAfterFirst, containsSub]
      by_cases h : pat.isEmpty <;> simp [h]
  | cons k ks ih =>
      simp only [dropAfterFirst, containsSub]
      cases h : startsWith pat (k :: ks) <;> simp [h, ih]

theorem dropAfterFirst_nil (key : List Char) : dropAfterFirst [] key = some key := by
  cases key <;> simp [dropAfterFirst, startsWith, List.isEmpty]

theorem segsSearch_pair (seg key : List Char) :
    segsSearch [seg, []] key = containsSub seg key := by
  have h := dropAfterFirst_isSome seg key
  cases hd : dropAfterFirst seg key with
  | none => rw [hd] at h; simp at h; simp [segsSearch, hd, ← h]
  | some k2 => rw [hd] at h; simp at h; simp [segsSearch, hd, dropAfterFirst_nil, ← h]

theorem segsSearch_single (seg key : List Char) :
    segsSearch [seg] key = containsSub seg key := by
  have h := dropAfterFirst_isSome seg key
  cases hd : dropAfterFirst seg key with
  | none => rw [hd] at h; simp at h; simp [segsSearch, hd, ← h]
  | some k2 => rw [hd] at h; simp at h; simp [segsSearch, hd, ← h]

theorem splitOnStar_no_star {l : List Char} (h : '*' ∉ l) : splitOnStar l = [l] := by
  induction l with
  | nil => rfl
  | cons c cs ih =>
      have hc : ¬ c = '*' := fun e => h (e ▸ List.mem_cons_self c cs)
      have hcs : '*' ∉ cs := fun m => h (List.mem_cons_of_mem c m)
      simp [splitOnStar, hc, ih hcs]

theorem splitOnStar_append_star {l : List Char} (h : '*' ∉ l) :
    splitOnStar (l ++ ['*']) = [l, []] := by
  induction l with
  | nil => decide
  | cons c cs ih =>
      have hc : ¬ c = '*' := fun e => h (e ▸ List.mem_cons_self c cs)
      have hcs : '*' ∉ cs := fun m => h (List.mem_cons_of_mem c m)
      simp [splitOnStar, hc, ih hcs]

/-- Lemma: `re.search` of a pattern `lit*` (a literal followed by one wildcard)
succeeds exactly on the keys that contain `lit` as a substring. -/
theorem reSearch_star (lit key : List Char) (h : '*' ∉ lit) :
    reSearch (lit ++ ['*']) key = containsSub lit key := by
  rw [reSearch, splitOnStar_append_star h, segsSearch_pair]

/-- Lemma: `re.search` of a literal pattern succeeds exactly on the keys that
contain it as a substring. -/
theorem reSearch_lit (lit key : List Char) (h : '*' ∉ lit) :
    reSearch lit key = containsSub lit key := by
  rw [reSearch, splitOnStar_no_star h, segsSearch_single]

theorem reSearch_posts_list (key : List Char) :
    reSearch "posts_list_*".data key = containsSub "posts_list_".data key := by
  have h : "posts_list_*".data = "posts_list_".data ++ ['*'] := by decide
  rw [h, reSearch_star _ _ (by decide)]

/-! ### Lemmas about the cache operations -/

theorem enumerable_delete_cache_pattern {V : Type} (p : List Char) (c : PyCache V) :
    (delete_cache_pattern p c).enumerable = c.enumerable := by
  unfold delete_cache_pattern
  split <;> rfl

theorem mem_delete_cache_pattern {V : Type} {p : List Char} {c : PyCache V}
    {e : List Char × CacheEntry V} (hen : c.enumerable = true)
    (h : e ∈ (delete_cache_pattern p c).entries) :
    e ∈ c.entries ∧ reSearch p e.1 = false := by
  unfold delete_cache_pattern at h
  rw [hen] at h
  simp only [if_true, List.mem_filter, Bool.not_eq_true'] at h
  exact h

theorem mem_delete_cache_pattern_of_not {V : Type} {p : List Char} {c : PyCache V}
    {e : List Char × CacheEntry V} (h : e ∈ c.entries)
    (hm : reSearch p e.1 = false) :
    e ∈ (delete_cache_pattern p c).entries := by
  unfold delete_cache_pattern
  split
  · simp [List.mem_filter, h, hm]
  · exact h

theorem mem_foldl_delete {V : Type} (pats : List (List Char)) (c : PyCache V)
    (e : List Char × CacheEntry V) (hen : c.enumerable = true)
    (h : e ∈ ((pats.foldl (fun acc p => delete_cache_pattern p acc) c).entries)) :
    e ∈ c.entries ∧ ∀ p ∈ pats, reSearch p e.1 = false := by
  induction pats generalizing c with
  | nil => simpa using h
  | cons p ps ih =>
      have hen' : (delete_cache_pattern p c).enumerable = true := by
        rw [enumerable_delete_cache_pattern]; exact hen
      have h' := ih (delete_cache_pattern p c) hen' (by simpa [List.foldl] using h)
      have h0 := mem_delete_cache_pattern hen h'.1
      refine ⟨h0.1, ?_⟩
      intro q hq
      rcases List.mem_cons.mp hq with rfl | hq
      · exact h0.2
      · exact h'.2 q hq

theorem foldl_delete_noop {V : Type} (pats : List (List Char)) (c : PyCache V)
    (hen : c.enumerable = false) :
    pats.foldl (fun acc p => delete_cache_pattern p acc) c = c := by
  induction pats with
  | nil => rfl
  | cons p ps ih =>
      have h1 : delete_cache_pattern p c = c := by
        unfold delete_cache_pattern
        rw [hen]
        simp
      simp only [List.foldl, h1, ih]

/-! ### Lemmas about the decimal rendering -/

/-- Value of a little-endian digit list. -/
def ofDigitsRev : List Nat → Nat
  | [] => 0
  | d :: ds => d + 10 * ofDigitsRev ds

theorem ofDigitsRev_digitsRevAux :
    ∀ fuel n, n ≤ fuel → ofDigitsRev (digitsRevAux fuel n) = n := by
  intro fuel
  induction fuel with
  | zero =>
      intro n h
      have : n = 0 := Nat.le_zero.mp h
      simp [this, digitsRevAux, ofDigitsRev]
  | succ f ih =>
      intro n h
      by_cases h0 : n = 0
      · simp [digitsRevAux, h0, ofDigitsRev]
      · have hlt : n / 10 < n := Nat.div_lt_self (Nat.pos_of_ne_zero h0) (by omega)
        have hf : n / 10 ≤ f := by omega
        simp only [digitsRevAux, h0, if_false, ofDigitsRev, ih _ hf]
        omega

theorem digitsRevAux_lt :
    ∀ fuel n d, d ∈ digitsRevAux fuel n → d < 10 := by
  intro fuel
  induction fuel with
  | zero => intro n d h; simp [digitsRevAux] at h
  | succ f ih =>
      intro n d h
      by_cases h0 : n = 0
      · simp [digitsRevAux, h0] at h
      · simp only [digitsRevAux, h0, if_false, List.mem_cons] at h
        rcases h with rfl | h
        · omega
        · exact ih _ _ h

/-- Read a decimal digit character back; inverse of `digitChar` on digits. -/
def charDigit (c : Char) : Nat :=
  match c with
  | '0' => 0 | '1' => 1 | '2' => 2 | '3' => 3 | '4' => 4
  | '5' => 5 | '6' => 6 | '7' => 7 | '8' => 8 | '9' => 9
  | _ => 0

theorem charDigit_digitChar : ∀ d, d < 10 → charDigit (digitChar d) = d := by decide

theorem digitChar_ne_underscore : ∀ d, digitChar d ≠ '_' := by
  intro d
  unfold digitChar
  split <;> decide

/-- Parse a decimal rendering back to its value. -/
def parseNatStr (l : List Char) : Nat :=
  ofDigitsRev (l.reverse.map charDigit)

theorem parseNatStr_natStr (n : Nat) : parseNatStr (natStr n) = n := by
  unfold natStr
  by_cases h0 : n = 0
  · rw [if_pos h0]
    simp [h0, parseNatStr, charDigit, ofDigitsRev]
  · rw [if_neg h0]
    unfold parseNatStr
    rw [List.reverse_reverse, List.map_map]
    have hmap : (digitsRevAux n n).map (charDigit ∘ digitChar) = digitsRevAux n n := by
      have hcongr : (digitsRevAux n n).map (charDigit ∘ digitChar)
          = (digitsRevAux n n).map id := by
        apply List.map_congr_left
        intro a ha
        simp [charDigit_digitChar a (digitsRevAux_lt n n a ha)]
      rw [hcongr, List.map_id]
    rw [hmap, ofDigitsRev_digitsRevAux n n (le_refl n)]

theorem natStr_inj {m n : Nat} (h : natStr m = natStr n) : m = n := by
  have := congrArg parseNatStr h
  rwa [parseNatStr_natStr, parseNatStr_natStr] at this

theorem natStr_no_underscore (n : Nat) : '_' ∉ natStr n := by
  unfold natStr
  by_cases h0 : n = 0
  · rw [if_pos h0]; decide
  · rw [if_neg h0]
    intro hmem
    rw [List.mem_reverse, List.mem_map] at hmem
    obtain ⟨d, _, hd⟩ := hmem
    exact digitChar_ne_underscore d hd

/-! ### Splitting a key at a unique separator -/

theorem append_underscore_inj :
    ∀ (l1 l2 r1 r2 : List Char), '_' ∉ l1 → '_' ∉ l2 →
      l1 ++ '_' :: r1 = l2 ++ '_' :: r2 → l1 = l2 ∧ r1 = r2 := by
  intro l1
  induction l1 with
  | nil =>
      intro l2 r1 r2 _ h2 h
      cases l2 with
      | nil => simpa using h
      | cons b bs =>
          simp only [List.nil_append, List.cons_append, List.cons.injEq] at h
          exact absurd (h.1 ▸ List.mem_cons_self b bs) h2
  | cons a as ih =>
      intro l2 r1 r2 h1 h2 h
      cases l2 with
      | nil =>
          simp only [List.nil_append, List.cons_append, List.cons.injEq] at h
          exact absurd (h.1 ▸ List.mem_cons_self a as) h1
      | cons b bs =>
          simp only [List.cons_append, List.cons.injEq] at h
          have has : '_' ∉ as := fun m => h1 (List.mem_cons_of_mem a m)
          have hbs : '_' ∉ bs := fun m => h2 (List.mem_cons_of_mem b m)
          obtain ⟨heq, hr⟩ := ih bs r1 r2 has hbs h.2
          exact ⟨by rw [h.1, heq], hr⟩

/-! ### Lemmas about `Model.save` (upsert) -/

theorem mem_upsertBy_self {α : Type} (key : α → Nat) (x : α) {l : List α} {a : α}
    (ha : a ∈ l) (hk : key a = key x) : x ∈ upsertBy key x l := by
  unfold upsertBy
  have hany : l.any (fun y => key y = key x) = true :=
    List.any_eq_true.mpr ⟨a, ha, by simp [hk]⟩
  rw [if_pos hany]
  exact List.mem_map.mpr ⟨a, ha, by simp [hk]⟩

theorem upsertBy_upsertBy {α : Type} (key : α → Nat) (x : α) (l : List α) :
    upsertBy key x (upsertBy key x l) = upsertBy key x l := by
  by_cases h : l.any (fun y => key y = key x) = true
  · unfold upsertBy
    rw [if_pos h]
    obtain ⟨a, ha, hka⟩ := List.any_eq_true.mp h
    have hka' : key a = key x := by simpa using hka
    have hany2 : (l.map fun y => if key y = key x then x else y).any
        (fun y => key y = key x) = true := by
      refine List.any_eq_true.mpr ⟨x, List.mem_map.mpr ⟨a, ha, by simp [hka']⟩, by simp⟩
    rw [if_pos hany2, List.map_map]
    apply List.map_congr_left
    intro b _
    by_cases hb : key b = key x <;> simp [hb]
  · unfold upsertBy
    rw [if_neg h]
    have hfalse := Bool.eq_false_iff.mpr h
    have hnone : ∀ b ∈ l, ¬ key b = key x := by
      intro b hb
      have := List.any_eq_false.mp hfalse b hb
      simpa using this
    have hany2 : (l ++ [x]).any (fun y => key y = key x) = true :=
      List.any_eq_true.mpr ⟨x, by simp, by simp⟩
    rw [if_pos hany2, List.map_append]
    have hl : l.map (fun y => if key y = key x then x else y) = l := by
      have hc : l.map (fun y => if key y = key x then x else y) = l.map id :=
        List.map_congr_left (fun b hb => by simp [hnone b hb])
      rw [hc, List.map_id]
    simp [hl]

/-! ### Lemmas about the rating computation -/

theorem pyOrZero_some (v : Int) : pyOrZero (some v) = v := by
  by_cases hv : v = 0 <;> simp [pyOrZero, hv]

theorem pyOrZero_aggregate_mul3 (l : List Int) :
    pyOrZero ((aggregateSum l).map (· * 3)) = 3 * l.sum := by
  cases l with
  | nil => simp [aggregateSum, pyOrZero]
  | cons a as => simp [aggregateSum, pyOrZero_some, Int.mul_comm]

theorem pyOrZero_aggregate (l : List Int) : pyOrZero (aggregateSum l) = l.sum := by
  cases l with
  | nil => simp [aggregateSum, pyOrZero]
  | cons a as => simp [aggregateSum, pyOrZero_some]

/-- The value `update_rating` writes, in closed form: three list sums (an
empty collection contributes `0`, its empty sum). -/
theorem computeRating_eq (db : Db) (self : Author) :
    computeRating db self =
      3 * ((postsOf db self).map Post.rating).sum
      + ((commentsOfUser db self).map Comment.rating).sum
      + ((commentsOnPostsOf db self).map Comment.rating).sum := by
  unfold computeRating
  rw [pyOrZero_aggregate_mul3, pyOrZero_aggregate, pyOrZero_aggregate]

theorem commentsOnPostsOf_eq_nil {db : Db} {self : Author}
    (hp : postsOf db self = []) : commentsOnPostsOf db self = [] := by
  unfold postsOf at hp
  rw [List.filter_eq_nil_iff] at hp
  unfold commentsOnPostsOf
  rw [List.filter_eq_nil_iff]
  intro c _
  simp only [List.any_eq_true, not_exists, not_and]
  intro p hmem
  have := hp p hmem
  simp only [decide_eq_true_eq] at this
  simp [this]

/-! ### Claim C1 -/

/-- Claim C1: `update_rating` writes to the author's rating field exactly
3 times the rating sum of the author's posts, plus the rating sum of the
comments by the author's user, plus the rating sum of the comments on the
author's posts, an empty collection contributing 0; in particular an
author with no posts and no comments gets rating 0. -/
theorem update_rating_spec (db : Db) (self : Author) (hmem : self ∈ db.authors) :
    ({ self with rating :=
        3 * ((postsOf db self).map Post.rating).sum
        + ((commentsOfUser db self).map Comment.rating).sum
        + ((commentsOnPostsOf db self).map Comment.rating).sum } : Author)
      ∈ (update_rating db self).authors
    ∧ (postsOf db self = [] → commentsOfUser db self = [] →
        ({ self with rating := 0 } : Author) ∈ (update_rating db self).authors) := by
  have hx : ({ self with rating := computeRating db self } : Author)
      ∈ (update_rating db self).authors := by
    unfold update_rating
    exact mem_upsertBy_self Author.id _ hmem rfl
  constructor
  · rwa [computeRating_eq db self] at hx
  · intro hp hcu
    have hcp : commentsOnPostsOf db self = [] := commentsOnPostsOf_eq_nil hp
    have hz : computeRating db self = 0 := by
      rw [computeRating_eq db self, hp, hcu, hcp]
      simp
    rwa [hz] at hx

/-- The scenario of the spec: two posts of ratings 2 and 3, one own comment
of rating 1, one comment on an own post of rating 4. -/
def exAuthor : Author := ⟨1, 10, 0⟩

def exDb : Db :=
  ⟨[⟨1, 10, 0⟩, ⟨2, 20, 0⟩],
   [⟨1, "NW".data, 1, "1.0".data, "a".data, "t".data, 2⟩,
    ⟨2, "AR".data, 1, "2.0".data, "b".data, "t".data, 3⟩,
    ⟨3, "NW".data, 2, "3.0".data, "c".data, "t".data, 0⟩],
   [], [],
   [⟨1, 3, 10, "c".data, 1⟩, ⟨2, 1, 20, "d".data, 4⟩]⟩

/-- Witness for C1: on the spec's scenario (post ratings 2 and 3, one own
comment of rating 1 on another author's post, one foreign comment of
rating 4 on an own post) the author ends with rating
`3 * 5 + 1 + 4 = 20`. -/
theorem update_rating_spec_witness :
    ({ exAuthor with rating :=
        3 * ((postsOf exDb exAuthor).map Post.rating).sum
        + ((commentsOfUser exDb exAuthor).map Comment.rating).sum
        + ((commentsOnPostsOf exDb exAuthor).map Comment.rating).sum } : Author)
      ∈ (update_rating exDb exAuthor).authors
    ∧ ({ exAuthor with rating := 20 } : Author) ∈ (update_rating exDb exAuthor).authors := by
  have h := update_rating_spec exDb exAuthor (by decide)
  refine ⟨h.1, ?_⟩
  have e : (3 * ((postsOf exDb exAuthor).map Post.rating).sum
      + ((commentsOfUser exDb exAuthor).map Comment.rating).sum
      + ((commentsOnPostsOf exDb exAuthor).map Comment.rating).sum) = 20 := by decide
  have h1 := h.1
  rw [e] at h1
  exact h1

/-! ### Claim C7 -/

/-- Claim C7: `update_rating` is idempotent over an unchanged set of posts
and comments: running it a second time (on the author instance the first
run produced) recomputes the same value, because the written rating feeds
into none of the three sums. -/
theorem update_rating_idempotent (db : Db) (self : Author) :
    update_rating (update_rating db self) { self with rating := computeRating db self }
      = update_rating db self := by
  unfold update_rating
  congr 1
  exact upsertBy_upsertBy Author.id _ db.authors

/-! ### Claim C2 -/

/-- Claim C2: saving or deleting a Post deletes every cache entry whose key
matches one of the six invalidation patterns (wildcards searched as
substring regexes), provided the backend exposes its keys. -/
theorem post_write_invalidates (V : Type) (s : St V) (p : Post)
    (hen : s.cache.enumerable = true) :
    (∀ e ∈ (postSave p s).cache.entries,
        ∀ pat ∈ invalidationPatterns p.id, reSearch pat e.1 = false)
    ∧ (∀ e ∈ (postDelete p s).cache.entries,
        ∀ pat ∈ invalidationPatterns p.id, reSearch pat e.1 = false) := by
  constructor <;>
  · intro e he pat hpat
    exact (mem_foldl_delete (invalidationPatterns p.id) s.cache e hen he).2 pat hpat

/-- An enumerable cache holding one entry per key family, plus one
unrelated entry. -/
def exCache : PyCache Nat :=
  ⟨true,
   [("posts_list_abc".data, ⟨1, 300⟩),
    ("post_detail_7_1700000000.0".data, ⟨2, 300⟩),
    ("home_page".data, ⟨3, 60⟩),
    ("unrelated_key".data, ⟨4, 300⟩)]⟩

def exPost : Post := ⟨7, "NW".data, 1, "1700000000.0".data, "n".data, "t".data, 0⟩

def exSt : St Nat := ⟨⟨[], [], [], [], []⟩, exCache⟩

/-- Witness for C2: after saving post 7, the matching `posts_list_abc`,
`post_detail_7_...` and `home_page` entries are gone. -/
theorem post_write_invalidates_witness :
    ("posts_list_abc".data, (⟨1, 300⟩ : CacheEntry Nat))
        ∉ (postSave exPost exSt).cache.entries
    ∧ ("post_detail_7_1700000000.0".data, (⟨2, 300⟩ : CacheEntry Nat))
        ∉ (postSave exPost exSt).cache.entries
    ∧ ("home_page".data, (⟨3, 60⟩ : CacheEntry Nat))
        ∉ (postSave exPost exSt).cache.entries := by
  refine ⟨fun hmem => ?_, fun hmem => ?_, fun hmem => ?_⟩
  · exact absurd ((post_write_invalidates Nat exSt exPost (by decide)).1 _ hmem
      "posts_list_*".data (by decide)) (by decide)
  · exact absurd ((post_write_invalidates Nat exSt exPost (by decide)).1 _ hmem
      ("post_detail_".data ++ natStr exPost.id ++ "_*".data) (by decide)) (by decide)
  · exact absurd ((post_write_invalidates Nat exSt exPost (by decide)).1 _ hmem
      "home_page".data (by decide)) (by decide)

/-! ### Claim C3 -/

def c3St : St Nat :=
  ⟨⟨[], [], [], [], []⟩, ⟨true, [("posts_list_abc".data, ⟨1, 300⟩)]⟩⟩

def c3Comment : Comment := ⟨1, 1, 1, "hi".data, 0⟩

/-- Counterexample to claim C3 as stated: the `Comment` model overrides
neither `save` nor `delete`, so a comment write (create, update via
`like`, or delete) deletes nothing — here a key matched by the
`posts_list_*` invalidation pattern survives every comment write on an
enumerable cache. -/
theorem comment_write_no_invalidation :
    reSearch "posts_list_*".data "posts_list_abc".data = true
    ∧ c3St.cache.enumerable = true
    ∧ ("posts_list_abc".data, (⟨1, 300⟩ : CacheEntry Nat))
        ∈ (commentSave c3Comment c3St).cache.entries
    ∧ ("posts_list_abc".data, (⟨1, 300⟩ : CacheEntry Nat))
        ∈ (commentLike c3Comment c3St).cache.entries
    ∧ ("posts_list_abc".data, (⟨1, 300⟩ : CacheEntry Nat))
        ∈ (commentDelete c3Comment c3St).cache.entries := by decide

/-- Claim C3 (amended): a write to a Post triggers invalidation of the
related cache keys, but a write to a Comment (create, update, or delete)
performs no cache invalidation at all — the cache is left unchanged. -/
theorem comment_write_cache_unchanged (V : Type) (s : St V) (c : Comment) :
    (commentSave c s).cache = s.cache
    ∧ (commentLike c s).cache = s.cache
    ∧ (commentDelete c s).cache = s.cache
    ∧ (∀ p : Post, s.cache.enumerable = true →
        ∀ e ∈ (postSave p s).cache.entries,
          ∀ pat ∈ invalidationPatterns p.id, reSearch pat e.1 = false) := by
  refine ⟨rfl, rfl, rfl, ?_⟩
  intro p hen e he pat hpat
  exact (mem_foldl_delete (invalidationPatterns p.id) s.cache e hen he).2 pat hpat

/-- Witness for the amended C3: on the concrete state, the comment write
keeps the cache, while the post write (shown on the matching key) clears
matching entries. -/
theorem comment_write_cache_unchanged_witness :
    (commentSave c3Comment c3St).cache = c3St.cache
    ∧ (("posts_list_abc".data, (⟨1, 300⟩ : CacheEntry Nat))
        ∉ (postSave exPost c3St).cache.entries) := by
  have h := comment_write_cache_unchanged Nat c3St c3Comment
  refine ⟨h.1, fun hmem => ?_⟩
  exact absurd (h.2.2.2 exPost (by decide) _ hmem "posts_list_*".data (by decide)) (by decide)

/-! ### Claim C4 -/

/-- Claim C4: when the backend does not expose key enumeration, pattern
invalidation is a silent no-op — no error reaches the caller, the cache
is untouched, and the surrounding write still lands in the database. -/
theorem no_enumeration_noop (V : Type) (s : St V) (p : Post) (pat : List Char)
    (hen : s.cache.enumerable = false) :
    delete_cache_pattern pat s.cache = s.cache
    ∧ invalidate_cache p.id s.cache = s.cache
    ∧ (postSave p s).cache = s.cache
    ∧ (postSave p s).db.posts = upsertBy Post.id p s.db.posts
    ∧ (postDelete p s).cache = s.cache
    ∧ (postDelete p s).db.posts = s.db.posts.filter (fun q => q.id ≠ p.id) := by
  have h1 : delete_cache_pattern pat s.cache = s.cache := by
    unfold delete_cache_pattern
    rw [hen]
    simp
  have h2 : invalidate_cache p.id s.cache = s.cache :=
    foldl_delete_noop (invalidationPatterns p.id) s.cache hen
  exact ⟨h1, h2, h2, rfl, h2, rfl⟩

def c4St : St Nat :=
  ⟨⟨[], [], [], [], []⟩, ⟨false, [("posts_list_abc".data, ⟨1, 300⟩)]⟩⟩

/-- Witness for C4: with a non-enumerable backend, saving post 7 keeps the
matched `posts_list_abc` entry and still upserts the post row. -/
theorem no_enumeration_noop_witness :
    (postSave exPost c4St).cache = c4St.cache
    ∧ (postSave exPost c4St).db.posts = upsertBy Post.id exPost c4St.db.posts := by
  have h := no_enumeration_noop Nat c4St exPost "posts_list_*".data rfl
  exact ⟨h.2.2.1, h.2.2.2.1⟩

/-! ### Claim C5 -/

def c5Cache : PyCache Nat :=
  ⟨true, [("xposts_list_1".data, ⟨5, 300⟩), ("home_page".data, ⟨6, 60⟩)]⟩

/-- Counterexample to claim C5 as stated: invalidating `posts_list_*` uses
`re.search`, i.e. substring matching, so the key `xposts_list_1` — which
does not begin with `posts_list_` and is matched by none of the other
five invalidation patterns — is deleted all the same. -/
theorem delete_posts_list_deletes_unrelated_key :
    startsWith "posts_list_".data "xposts_list_1".data = false
    ∧ ((invalidationPatterns 7).all
        (fun pat => pat = "posts_list_*".data
          || !reSearch pat "xposts_list_1".data)) = true
    ∧ ("xposts_list_1".data, (⟨5, 300⟩ : CacheEntry Nat)) ∈ c5Cache.entries
    ∧ ("xposts_list_1".data, (⟨5, 300⟩ : CacheEntry Nat))
        ∉ (delete_cache_pattern "posts_list_*".data c5Cache).entries := by decide

/-- Claim C5 (amended): on an enumerable cache, invalidating the pattern
`posts_list_*` deletes exactly the entries whose key contains
`posts_list_` as a substring — in particular every key beginning with
`posts_list_` — and leaves every entry whose key does not contain it
(for example `home_page`) in place with its value. -/
theorem delete_posts_list_pattern_spec (V : Type) (c : PyCache V)
    (hen : c.enumerable = true) :
    (∀ e ∈ (delete_cache_pattern "posts_list_*".data c).entries,
        containsSub "posts_list_".data e.1 = false)
    ∧ (∀ e ∈ c.entries, containsSub "posts_list_".data e.1 = false →
        e ∈ (delete_cache_pattern "posts_list_*".data c).entries)
    ∧ (∀ key : List Char, startsWith "posts_list_".data key = true →
        containsSub "posts_list_".data key = true) := by
  refine ⟨?_, ?_, fun key h => containsSub_of_startsWith h⟩
  · intro e he
    have h := (mem_delete_cache_pattern hen he).2
    rwa [reSearch_posts_list] at h
  · intro e he hnc
    exact mem_delete_cache_pattern_of_not he (by rwa [reSearch_posts_list])

/-- Witness for the amended C5: on the concrete cache, the substring match
removes `xposts_list_1` and keeps `home_page` with its value. -/
theorem delete_posts_list_pattern_spec_witness :
    ("home_page".data, (⟨6, 60⟩ : CacheEntry Nat))
      ∈ (delete_cache_pattern "posts_list_*".data c5Cache).entries
    ∧ (("posts_list_p1".data, (⟨9, 300⟩ : CacheEntry Nat))
        ∉ (delete_cache_pattern "posts_list_*".data
            (⟨true, [("posts_list_p1".data, ⟨9, 300⟩)]⟩ : PyCache Nat)).entries) := by
  constructor
  · exact (delete_posts_list_pattern_spec Nat c5Cache (by decide)).2.1 _ (by decide) (by decide)
  · intro hmem
    exact absurd ((delete_posts_list_pattern_spec Nat
        (⟨true, [("posts_list_p1".data, ⟨9, 300⟩)]⟩ : PyCache Nat) (by decide)).1 _ hmem)
      (by decide)

/-! ### Claim C6 -/

/-- Claim C6: the cache key functions are pure and injective — equal
inputs give equal keys and distinct inputs give distinct keys (each
`↔` packages both directions).  For the detail key the timestamps are
required to contain no underscore, which every decimal rendering of a
float satisfies; two query strings that encode the same parameters in a
different order are distinct strings and so get distinct keys. -/
theorem cache_key_scheme_injective :
    (∀ (id1 : Nat) (ts1 : List Char) (id2 : Nat) (ts2 : List Char),
        '_' ∉ ts1 → '_' ∉ ts2 →
        (get_post_cache_key id1 ts1 = get_post_cache_key id2 ts2
          ↔ id1 = id2 ∧ ts1 = ts2))
    ∧ (∀ p q : List Char,
        get_posts_list_cache_key p = get_posts_list_cache_key q ↔ p = q)
    ∧ (∀ p q : List Char,
        get_search_cache_key p = get_search_cache_key q ↔ p = q) := by
  refine ⟨?_, ?_, ?_⟩
  · intro id1 ts1 id2 ts2 h1 h2
    constructor
    · intro h
      unfold get_post_cache_key at h
      simp only [show ("_".data : List Char) = ['_'] from rfl, List.append_assoc,
        List.cons_append, List.nil_append] at h
      simp at h
      obtain ⟨hn, ht⟩ := append_underscore_inj _ _ _ _
        (natStr_no_underscore id1) (natStr_no_underscore id2) h
      exact ⟨natStr_inj hn, ht⟩
    · rintro ⟨rfl, rfl⟩
      rfl
  · intro p q
    constructor
    · intro h
      unfold get_posts_list_cache_key at h
      exact List.append_cancel_left h
    · exact congrArg _
  · intro p q
    constructor
    · intro h
      unfold get_search_cache_key at h
      exact List.append_cancel_left h
    · exact congrArg _

/-- Witness for C6: posts 5 and 6 sharing a timestamp get distinct detail
keys. -/
theorem cache_key_scheme_injective_witness :
    get_post_cache_key 5 "1700000000.0".data ≠ get_post_cache_key 6 "1700000000.0".data := by
  intro h
  have h56 := (cache_key_scheme_injective.1 5 "1700000000.0".data 6 "1700000000.0".data
    (by decide) (by decide)).mp h
  exact absurd h56.1 (by decide)

/-! ### Claim C8 -/

/-- Claim C8: the detail cache key is
`post_detail_{post_id}_{creation_timestamp}`; at `post_id = 5` and
timestamp `1700000000.0` it is exactly `post_detail_5_1700000000.0`. -/
theorem get_post_cache_key_concrete :
    get_post_cache_key 5 "1700000000.0".data = "post_detail_5_1700000000.0".data := by
  decide

/-! ### Claim C9 -/

theorem cacheGet_cacheSet_self {V : Type} (c : PyCache V) (k : List Char)
    (v : V) (t : Nat) : cacheGet (cacheSet c k v t) k = some v := by
  unfold cacheGet cacheSet
  simp [List.find?]

theorem postDetailGetObject_hit (s : St DetailData) (obj : Post) (now : Nat)
    (d : DetailData)
    (hd : cacheGet s.cache (get_post_cache_key obj.id obj.creation_time) = some d) :
    postDetailGetObject s obj now = (d.object, s) := by
  unfold postDetailGetObject
  simp only [hd]

theorem postDetailGetObject_miss (s : St DetailData) (obj : Post) (now : Nat)
    (h : cacheGet s.cache (get_post_cache_key obj.id obj.creation_time) = none) :
    postDetailGetObject s obj now
      = (obj, ⟨s.db, cacheSet s.cache (get_post_cache_key obj.id obj.creation_time)
          ⟨obj, now, categoriesOf s.db obj, authorNameOf s.db obj⟩
          CACHE_TIMEOUT_POST_DETAIL⟩) := by
  unfold postDetailGetObject
  simp only [h]

/-- Claim C9: the cached read paths probe first.  A detail read returns
the cached object on a hit without touching the state, and on a miss
computes the detail dictionary, stores it under the detail key with the
configured timeout and returns the object; likewise the posts-list read.
Hence two detail reads with no intervening write return the same
value. -/
theorem cached_read_path_spec (s : St DetailData) (obj : Post) (now : Nat) :
    (∀ d, cacheGet s.cache (get_post_cache_key obj.id obj.creation_time) = some d →
        postDetailGetObject s obj now = (d.object, s))
    ∧ (cacheGet s.cache (get_post_cache_key obj.id obj.creation_time) = none →
        (postDetailGetObject s obj now).1 = obj
        ∧ cacheGet (postDetailGetObject s obj now).2.cache
            (get_post_cache_key obj.id obj.creation_time)
          = some ⟨obj, now, categoriesOf s.db obj, authorNameOf s.db obj⟩
        ∧ ((postDetailGetObject s obj now).2.cache.entries.find?
              (fun e => e.1 = get_post_cache_key obj.id obj.creation_time)).map
              (fun e => e.2.timeout)
          = some CACHE_TIMEOUT_POST_DETAIL)
    ∧ (∀ now2, (postDetailGetObject (postDetailGetObject s obj now).2 obj now2).1
        = (postDetailGetObject s obj now).1)
    ∧ (∀ (fq : List Post → List Post) (t : St (List Post)) (params : List Char),
        (∀ q, cacheGet t.cache (get_posts_list_cache_key params) = some q →
          postsListGetQueryset fq t params = (q, t))
        ∧ (cacheGet t.cache (get_posts_list_cache_key params) = none →
          postsListGetQueryset fq t params
            = (fq t.db.posts,
               ⟨t.db, cacheSet t.cache (get_posts_list_cache_key params)
                  (fq t.db.posts) CACHE_TIMEOUT_POSTS⟩))) := by
  refine ⟨postDetailGetObject_hit s obj now, ?_, ?_, ?_⟩
  · intro h
    rw [postDetailGetObject_miss s obj now h]
    refine ⟨rfl, cacheGet_cacheSet_self _ _ _ _, ?_⟩
    simp [cacheSet, List.find?]
  · intro now2
    cases hc : cacheGet s.cache (get_post_cache_key obj.id obj.creation_time) with
    | some d =>
        rw [postDetailGetObject_hit s obj now d hc,
          postDetailGetObject_hit s obj now2 d hc]
    | none =>
        rw [postDetailGetObject_miss s obj now hc]
        rw [postDetailGetObject_hit _ obj now2 _ (cacheGet_cacheSet_self _ _ _ _)]
  · intro fq t params
    constructor
    · intro q hq
      unfold postsListGetQueryset
      simp only [hq]
    · intro hq
      unfold postsListGetQueryset
      simp only [hq]

def c9Post : Post := ⟨5, "NW".data, 1, "1700000000.0".data, "n".data, "t".data, 0⟩

def c9St : St DetailData := ⟨⟨[], [], [], [], []⟩, ⟨true, []⟩⟩

/-- Witness for C9: on an empty cache, the first detail read of post 5
returns the post and the second read returns the same value from the
cache. -/
theorem cached_read_path_spec_witness :
    (postDetailGetObject c9St c9Post 42).1 = c9Post
    ∧ (postDetailGetObject (postDetailGetObject c9St c9Post 42).2 c9Post 43).1
      = (postDetailGetObject c9St c9Post 42).1 := by
  have h := cached_read_path_spec c9St c9Post 42
  exact ⟨(h.2.1 (by decide)).1, h.2.2.1 43⟩

/-! ### Claim C10 -/

/-- Claim C10: the `Post` model does not declare `is_published`, so on a
cache miss `home_view`'s first query raises `FieldError` instead of
computing and returning the home-page data. -/
theorem home_view_miss_field_error (s : St HomeData) (now : Nat)
    (hmiss : cacheGet s.cache "home_page".data = none) :
    "is_published".data ∉ post_fields
    ∧ home_view s now = .error ("Cannot resolve keyword is_published".data) := by
  refine ⟨by decide, ?_⟩
  unfold home_view
  rw [hmiss]
  rfl

def c10St : St HomeData := ⟨⟨[], [], [], [], []⟩, ⟨true, []⟩⟩

/-- Witness for C10: on an empty cache the home view errors out. -/
theorem home_view_miss_field_error_witness :
    home_view c10St 0 = .error ("Cannot resolve keyword is_published".data) :=
  (home_view_miss_field_error c10St 0 (by decide)).2

end NewsPortal
